import Mathlib

/-!
Verification of the allocation core of the ai-hospital-backend repository.

The Python modules `app/agent_manager.py`, `app/models.py` and
`app/notifications.py` are embedded shallowly:

* the `PriorityQueue` class (heap of `(priority, counter, ticket_id)` tuples,
  `heapq` used through its documented contract: push adds an entry, pop removes
  and returns the lexicographically smallest tuple);
* the ORM rows `Ticket` and `Doctor` as Lean structures;
* `find_available_doctor` and one iteration of the body of the
  `allocation_worker` loop, with the fallible operations (storage commits,
  outbound notifications) driven by explicit failure flags;
* the triage-output handling of `start_patient_workflow` over a small JSON
  value type (the classifier text is represented by the result of parsing it).
-/

namespace Hospital

/-- One heap entry of the `PriorityQueue`: the tuple
`(priority, counter, ticket_id)` pushed in `PriorityQueue.put`. -/
structure Entry where
  priority : Int
  counter : Nat
  tid : Nat
deriving DecidableEq, Repr

/-- Strict lexicographic order on entries: Python tuple comparison of
`(priority, counter, ticket_id)`. -/
def Entry.lexLt (a b : Entry) : Prop :=
  a.priority < b.priority ∨
    (a.priority = b.priority ∧
      (a.counter < b.counter ∨ (a.counter = b.counter ∧ a.tid < b.tid)))

instance : DecidableRel Entry.lexLt := fun a b => by
  unfold Entry.lexLt; infer_instance

/-- Reflexive lexicographic order on entries. -/
def Entry.lexLe (a b : Entry) : Prop :=
  a.priority < b.priority ∨
    (a.priority = b.priority ∧
      (a.counter < b.counter ∨ (a.counter = b.counter ∧ a.tid ≤ b.tid)))

theorem Entry.lexLe_of_not_lexLt {a b : Entry} (h : ¬ Entry.lexLt a b) :
    Entry.lexLe b a := by
  unfold Entry.lexLt at h
  unfold Entry.lexLe
  omega

theorem Entry.lexLe_refl (a : Entry) : Entry.lexLe a a := by
  unfold Entry.lexLe; omega

theorem Entry.lexLe_of_lexLt {a b : Entry} (h : Entry.lexLt a b) :
    Entry.lexLe a b := by
  unfold Entry.lexLt at h; unfold Entry.lexLe; omega

theorem Entry.lexLe_trans {a b c : Entry} (h1 : Entry.lexLe a b)
    (h2 : Entry.lexLe b c) : Entry.lexLe a c := by
  unfold Entry.lexLe at *; omega

/-- The smallest entry among `x` and the elements of a list
(`heapq.heappop` returns the smallest tuple in the heap). -/
def minEntry (x : Entry) : List Entry → Entry
  | [] => x
  | y :: ys => minEntry (if Entry.lexLt y x then y else x) ys

theorem minEntry_eq_or_mem (x : Entry) (l : List Entry) :
    minEntry x l = x ∨ minEntry x l ∈ l := by
  induction l generalizing x with
  | nil => left; rfl
  | cons y ys ih =>
    simp only [minEntry]
    by_cases hy : Entry.lexLt y x
    · simp only [hy, if_pos]
      rcases ih y with h | h
      · right; rw [h]; exact List.mem_cons_self _ _
      · right; exact List.mem_cons_of_mem _ h
    · simp only [hy, if_neg, not_false_eq_true]
      rcases ih x with h | h
      · left; exact h
      · right; exact List.mem_cons_of_mem _ h

theorem minEntry_le_start (x : Entry) (l : List Entry) :
    Entry.lexLe (minEntry x l) x := by
  induction l generalizing x with
  | nil => exact Entry.lexLe_refl x
  | cons y ys ih =>
    simp only [minEntry]
    by_cases hy : Entry.lexLt y x
    · simp only [hy, if_pos]
      exact Entry.lexLe_trans (ih y) (Entry.lexLe_of_lexLt hy)
    · simp only [hy, if_neg, not_false_eq_true]
      exact ih x

theorem minEntry_le_mem (x : Entry) (l : List Entry) :
    ∀ y ∈ l, Entry.lexLe (minEntry x l) y := by
  induction l generalizing x with
  | nil => intro y hy; cases hy
  | cons z zs ih =>
    intro y hy
    simp only [minEntry]
    rcases List.mem_cons.mp hy with h | h
    · subst h
      by_cases hz : Entry.lexLt y x
      · simp only [hz, if_pos]; exact minEntry_le_start y zs
      · simp only [hz, if_neg, not_false_eq_true]
        exact Entry.lexLe_trans (minEntry_le_start x zs)
          (Entry.lexLe_of_not_lexLt hz)
    · by_cases hz : Entry.lexLt z x
      · simp only [hz, if_pos]; exact ih z y h
      · simp only [hz, if_neg, not_false_eq_true]; exact ih x y h

/-- `heapq` pop selection: the smallest entry of the heap, if any. -/
def findMin : List Entry → Option Entry
  | [] => none
  | x :: xs => some (minEntry x xs)

theorem findMin_mem {l : List Entry} {e : Entry} (h : findMin l = some e) :
    e ∈ l := by
  cases l with
  | nil => cases h
  | cons x xs =>
    simp only [findMin, Option.some.injEq] at h
    subst h
    rcases minEntry_eq_or_mem x xs with h1 | h1
    · rw [h1]; exact List.mem_cons_self _ _
    · exact List.mem_cons_of_mem _ h1

theorem findMin_le {l : List Entry} {e : Entry} (h : findMin l = some e) :
    ∀ y ∈ l, Entry.lexLe e y := by
  cases l with
  | nil => cases h
  | cons x xs =>
    simp only [findMin, Option.some.injEq] at h
    subst h
    intro y hy
    rcases List.mem_cons.mp hy with h1 | h1
    · subst h1; exact minEntry_le_start y xs
    · exact minEntry_le_mem x xs y h1

theorem findMin_eq_none {l : List Entry} (h : findMin l = none) : l = [] := by
  cases l with
  | nil => rfl
  | cons x xs => simp [findMin] at h

/-- Repeatedly popping the heap, collecting the entries in pop order;
fuel-bounded so that it computes by reduction. -/
def extractLoop : Nat → List Entry → List Entry
  | 0, _ => []
  | fuel + 1, l =>
    match findMin l with
    | none => []
    | some e => e :: extractLoop fuel (l.erase e)

/-- Popping the heap until it is empty, collecting the entries in pop order. -/
def extractAll (l : List Entry) : List Entry := extractLoop l.length l

theorem extractLoop_perm (fuel : Nat) (l : List Entry)
    (hf : l.length ≤ fuel) : List.Perm (extractLoop fuel l) l := by
  induction fuel generalizing l with
  | zero =>
    have : l = [] := List.length_eq_zero.mp (Nat.le_zero.mp hf)
    subst this; exact List.Perm.refl []
  | succ fuel ih =>
    rw [extractLoop]
    split
    · rename_i h
      rw [findMin_eq_none h]
    · rename_i e h
      have hm : e ∈ l := findMin_mem h
      have hlen : (l.erase e).length = l.length - 1 :=
        List.length_erase_of_mem hm
      have hpos : 0 < l.length := List.length_pos.mpr (List.ne_nil_of_mem hm)
      have hperm := ih (l.erase e) (by omega)
      exact (hperm.cons e).trans (List.perm_cons_erase hm).symm

theorem extractAll_perm (l : List Entry) : List.Perm (extractAll l) l :=
  extractLoop_perm l.length l (Nat.le_refl _)

theorem extractLoop_subset (fuel : Nat) (l : List Entry) :
    ∀ y ∈ extractLoop fuel l, y ∈ l := by
  induction fuel generalizing l with
  | zero => intro y hy; cases hy
  | succ fuel ih =>
    intro y hy
    rw [extractLoop] at hy
    split at hy
    · cases hy
    · rename_i e h
      rcases List.mem_cons.mp hy with h1 | h1
      · subst h1; exact findMin_mem h
      · exact List.mem_of_mem_erase (ih (l.erase e) y h1)

theorem extractLoop_sorted (fuel : Nat) (l : List Entry) :
    (extractLoop fuel l).Pairwise Entry.lexLe := by
  induction fuel generalizing l with
  | zero => exact List.Pairwise.nil
  | succ fuel ih =>
    rw [extractLoop]
    split
    · exact List.Pairwise.nil
    · rename_i e h
      refine List.pairwise_cons.mpr ⟨?_, ih (l.erase e)⟩
      intro y hy
      have hy2 : y ∈ l.erase e := extractLoop_subset fuel (l.erase e) y hy
      exact findMin_le h y (List.mem_of_mem_erase hy2)

theorem extractAll_sorted (l : List Entry) :
    (extractAll l).Pairwise Entry.lexLe :=
  extractLoop_sorted l.length l

/-- The `PriorityQueue` class of `agent_manager.py`: a heap of
`(priority, counter, ticket_id)` entries plus the running counter. -/
structure PriorityQueue where
  heap : List Entry
  counter : Nat
deriving Repr

/-- `queue = PriorityQueue()`: empty heap, counter 0. -/
def PriorityQueue.emptyQ : PriorityQueue := ⟨[], 0⟩

/-- `PriorityQueue.put`: increment the counter, push
`(priority, counter, ticket_id)`. -/
def PriorityQueue.put (q : PriorityQueue) (priority : Int) (ticket_id : Nat) :
    PriorityQueue :=
  { heap := q.heap ++ [⟨priority, q.counter + 1, ticket_id⟩],
    counter := q.counter + 1 }

/-- `PriorityQueue.get`: `None` on an empty heap, otherwise pop and return the
ticket id of the smallest `(priority, counter, ticket_id)` tuple. -/
def PriorityQueue.get (q : PriorityQueue) : Option Nat × PriorityQueue :=
  match findMin q.heap with
  | none => (none, q)
  | some e => (some e.tid, { q with heap := q.heap.erase e })

/-- A sequence of `put` calls performed in list order. -/
def putAll (items : List (Int × Nat)) (q : PriorityQueue) : PriorityQueue :=
  items.foldl (fun q it => q.put it.1 it.2) q

/-- The entries that a sequence of `put` calls starting at counter `c`
creates, in call order. -/
def tagEntries (items : List (Int × Nat)) (c : Nat) : List Entry :=
  match items with
  | [] => []
  | (p, t) :: rest => ⟨p, c + 1, t⟩ :: tagEntries rest (c + 1)

theorem putAll_heap (items : List (Int × Nat)) (q : PriorityQueue) :
    (putAll items q).heap = q.heap ++ tagEntries items q.counter := by
  induction items generalizing q with
  | nil => simp [putAll, tagEntries]
  | cons it rest ih =>
    obtain ⟨p, t⟩ := it
    simp only [putAll, List.foldl_cons, tagEntries]
    have := ih (q.put p t)
    simp only [putAll] at this
    rw [this]
    simp [PriorityQueue.put, List.append_assoc]

theorem tagEntries_payload (items : List (Int × Nat)) (c : Nat) :
    (tagEntries items c).map (fun e => (e.priority, e.tid)) = items := by
  induction items generalizing c with
  | nil => rfl
  | cons it rest ih =>
    obtain ⟨p, t⟩ := it
    simp only [tagEntries, List.map_cons]
    rw [ih (c + 1)]

theorem tagEntries_counter_gt (items : List (Int × Nat)) (c : Nat) :
    ∀ e ∈ tagEntries items c, c < e.counter := by
  induction items generalizing c with
  | nil => intro e he; cases he
  | cons it rest ih =>
    obtain ⟨p, t⟩ := it
    intro e he
    rcases List.mem_cons.mp he with h | h
    · subst h; exact Nat.lt_succ_self c
    · have := ih (c + 1) e h; omega

theorem tagEntries_counters_increasing (items : List (Int × Nat)) (c : Nat) :
    (tagEntries items c).Pairwise (fun a b => a.counter < b.counter) := by
  induction items generalizing c with
  | nil => exact List.Pairwise.nil
  | cons it rest ih =>
    obtain ⟨p, t⟩ := it
    refine List.pairwise_cons.mpr ⟨?_, ih (c + 1)⟩
    intro e he
    exact tagEntries_counter_gt rest (c + 1) e he

/-- The full dequeue trace: all entries popped, in pop order, after the given
sequence of `put` calls on a fresh queue. -/
def dequeueTrace (items : List (Int × Nat)) : List Entry :=
  extractAll (putAll items PriorityQueue.emptyQ).heap

theorem putAll_emptyQ_heap (items : List (Int × Nat)) :
    (putAll items PriorityQueue.emptyQ).heap = tagEntries items 0 := by
  rw [putAll_heap]; rfl

theorem dequeueTrace_perm (items : List (Int × Nat)) :
    List.Perm (dequeueTrace items) (tagEntries items 0) := by
  unfold dequeueTrace
  rw [putAll_emptyQ_heap]
  exact extractAll_perm _

theorem strict_of_lexLe_of_counter_ne {a b : Entry} (h1 : Entry.lexLe a b)
    (h2 : a.counter ≠ b.counter) :
    a.priority < b.priority ∨ (a.priority = b.priority ∧ a.counter < b.counter) := by
  unfold Entry.lexLe at h1; omega

theorem dequeueTrace_counters_ne (items : List (Int × Nat)) :
    (dequeueTrace items).Pairwise (fun a b => a.counter ≠ b.counter) := by
  refine ((dequeueTrace_perm items).pairwise_iff (fun h => Ne.symm h)).mpr ?_
  exact (tagEntries_counters_increasing items 0).imp (fun h => Nat.ne_of_lt h)

/-- Claim C1: after any sequence of `put` calls with priorities `p1..pn` on a
fresh `PriorityQueue`, the successful `get` calls return exactly the enqueued
entries (first conjunct), in strictly increasing `(priority, counter)` order —
hence non-decreasing priority, and FIFO among equal priorities (second
conjunct) — where the entries carry the enqueued payloads in call order
(third conjunct) and counters strictly increasing in call order (fourth
conjunct), the counter being the strictly increasing tie-break assigned at
insertion. -/
theorem spec_C1_priority_fifo_order (items : List (Int × Nat)) :
    List.Perm (dequeueTrace items) (tagEntries items 0) ∧
    (dequeueTrace items).Pairwise
      (fun a b => a.priority < b.priority ∨
        (a.priority = b.priority ∧ a.counter < b.counter)) ∧
    (tagEntries items 0).map (fun e => (e.priority, e.tid)) = items ∧
    (tagEntries items 0).Pairwise (fun a b => a.counter < b.counter) := by
  refine ⟨dequeueTrace_perm items, ?_, tagEntries_payload items 0,
    tagEntries_counters_increasing items 0⟩
  have h1 : (dequeueTrace items).Pairwise Entry.lexLe :=
    extractAll_sorted _
  have h2 := dequeueTrace_counters_ne items
  have h3 := List.Pairwise.and h1 h2
  exact h3.imp (fun h => strict_of_lexLe_of_counter_ne h.1 h.2)

/-! ## Data model (`models.py`) -/

/-- `TicketStatus` enum of `models.py`. -/
inductive TicketStatus
  | created
  | triage_done
  | diagnostics_ordered
  | physician_review
  | pharmacy
  | billing
  | discharged
  | cancelled
deriving DecidableEq, Repr

/-- A status is terminal when it is `discharged` or `cancelled`. -/
def TicketStatus.isTerminal : TicketStatus → Bool
  | .discharged => true
  | .cancelled => true
  | _ => false

/-- `UrgencyEnum` of `models.py`. -/
inductive UrgencyEnum
  | critical
  | urgent
  | normal
deriving DecidableEq, Repr

/-- A `tickets` row: the columns of `Ticket` that the allocation core reads
or writes. -/
structure TicketR where
  tid : Nat
  doctor_id : Option Nat
  status : TicketStatus
  priority_score : Int
deriving DecidableEq, Repr

/-- A `doctors` row: the columns of `Doctor` that the allocation core reads.
`max_patients` is a nullable integer column. -/
structure DoctorR where
  did : Nat
  dname : String
  max_patients : Option Int
  pushover_user : Option String
deriving DecidableEq, Repr

/-- An `agent_logs` row as written by the allocator (its `structured_output`
is the JSON object holding the doctor id). -/
structure AgentLogR where
  ticket_id : Nat
  agent_name : String
  stage : String
  structured_doctor_id : Nat
  raw_message : String
deriving DecidableEq, Repr

/-- Python truthiness of a nullable integer: `if ticket.doctor_id:` is taken
when the value is neither `None` nor `0`. -/
def truthyOptNat : Option Nat → Bool
  | none => false
  | some n => decide (n ≠ 0)

/-! ## Doctor allocation (`agent_manager.py`) -/

/-- The filter of the query inside `find_available_doctor` (lines 68–71):
ticket of this doctor with status other than `discharged`. -/
def actFlag (did : Nat) (t : TicketR) : Bool :=
  t.doctor_id == some did && !(t.status == TicketStatus.discharged)

/-- The predicate the spec speaks about: ticket of this doctor with
non-terminal status (neither `discharged` nor `cancelled`). -/
def ntFlag (did : Nat) (t : TicketR) : Bool :=
  t.doctor_id == some did && !(t.status.isTerminal)

/-- The count taken inside `find_available_doctor` (lines 68–71). -/
def activeCount (tickets : List TicketR) (did : Nat) : Nat :=
  tickets.countP (actFlag did)

/-- The count the spec speaks about. -/
def nonTerminalCount (tickets : List TicketR) (did : Nat) : Nat :=
  tickets.countP (ntFlag did)

/-- Python `d.max_patients or 5`: `None` and `0` are falsy and replaced
by `5`. -/
def orDefault5 : Option Int → Int
  | none => 5
  | some m => if m = 0 then 5 else m

/-- `find_available_doctor` (lines 62–74): first doctor, in table-scan order,
with `active < (d.max_patients or 5)`. -/
def find_available_doctor (doctors : List DoctorR) (tickets : List TicketR) :
    Option DoctorR :=
  doctors.find?
    (fun d => decide ((activeCount tickets d.did : Int) < orDefault5 d.max_patients))

/-! ## Notifications (`notifications.py`) -/

/-- Result of `send_pushover`. The function body is an early return when the
user key is falsy or the token is unset, and otherwise an HTTP post whose
failure is caught inside the function; no branch raises to the caller. -/
inductive PushoverResult
  | skippedNoUser
  | skippedNoToken
  | posted (succeeded : Bool)
deriving DecidableEq, Repr

/-- `send_pushover` (notifications.py lines 19–41): total — the `try/except`
around the HTTP post swallows every transport error. -/
def send_pushover (user_key : Option String) (token : Option String)
    (httpFails : Bool) : PushoverResult :=
  if user_key = none ∨ user_key = some "" then .skippedNoUser
  else if token = none ∨ token = some "" then .skippedNoToken
  else if httpFails then .posted false
  else .posted true

/-- `broadcast_to_doctor` (notifications.py lines 62–71): the registry maps a
doctor id to its sockets, each flagged with whether its `send_json` succeeds;
per-socket failures are caught, so the function is total. Returns the number
of sockets reached. -/
def broadcast_to_doctor (connected : List (Nat × List Bool)) (did : Nat) :
    Nat :=
  match connected.find? (fun kv => kv.1 == did) with
  | none => 0
  | some kv => (kv.2.filter id).length

/-! ## One iteration of the `allocation_worker` loop body (lines 92–141) -/

/-- Failure switches for the fallible external operations of one iteration. -/
structure IterEnv where
  queryFails : Bool
  commitAssignFails : Bool
  commitLogFails : Bool
  pushover_token : Option String
  pushoverHttpFails : Bool
  connected : List (Nat × List Bool)
deriving Repr

/-- Observable outcome of one iteration of the loop body: the persisted
ticket table, the committed log rows, the requeued `(priority, ticket_id)`
if any, whether the notification calls ran, and whether an exception
propagated out of the loop body (the body is `try/finally` with no
`except`). -/
structure IterResult where
  tickets : List TicketR
  logs : List AgentLogR
  requeue : Option (Int × Nat)
  pushover : Option PushoverResult
  broadcastAttempted : Bool
  raised : Bool
deriving DecidableEq, Repr

/-- The committed assignment update `ticket.doctor_id = doctor.id` keyed by
the ticket primary key. -/
def assignDoctor (tickets : List TicketR) (tid did : Nat) : List TicketR :=
  tickets.map (fun t => if t.tid == tid then { t with doctor_id := some did } else t)

/-- The log row written on the success path (lines 113–119). -/
def mkAllocLog (ticket_id did : Nat) (dname : String) : AgentLogR :=
  ⟨ticket_id, "allocator", "allocation", did,
    String.append "Assigned to doctor " dname⟩

/-- One iteration of the `allocation_worker` loop body after a successful
pop of `ticket_id` (agent_manager.py lines 92–141): re-fetch, skip when
missing or already assigned (Python truthiness), requeue at
`priority_score + 5` when no doctor is free, otherwise commit the
assignment, commit the log row, send pushover, broadcast. The broadcast
call is additionally wrapped in `try/except` in the loop; `send_pushover`
and `broadcast_to_doctor` are total, so the only operations that can raise
are the storage query and the two commits, and those have no handler. -/
def allocation_worker_iter (env : IterEnv) (doctors : List DoctorR)
    (tickets : List TicketR) (ticket_id : Nat) : IterResult :=
  if env.queryFails then ⟨tickets, [], none, none, false, true⟩
  else
    match tickets.find? (fun t => t.tid == ticket_id) with
    | none => ⟨tickets, [], none, none, false, false⟩
    | some ticket =>
      if truthyOptNat ticket.doctor_id then ⟨tickets, [], none, none, false, false⟩
      else
        match find_available_doctor doctors tickets with
        | none =>
          ⟨tickets, [], some (ticket.priority_score + 5, ticket.tid), none,
            false, false⟩
        | some doctor =>
          if env.commitAssignFails then ⟨tickets, [], none, none, false, true⟩
          else if env.commitLogFails then
            ⟨assignDoctor tickets ticket.tid doctor.did, [], none, none,
              false, true⟩
          else
            ⟨assignDoctor tickets ticket.tid doctor.did,
              [mkAllocLog ticket.tid doctor.did doctor.dname], none,
              some (send_pushover doctor.pushover_user env.pushover_token
                env.pushoverHttpFails),
              true, false⟩

/-! ## Helper lemmas on `find?` and the selection predicate -/

theorem find?_decomp {α : Type} {p : α → Bool} {l : List α} {a : α}
    (h : l.find? p = some a) :
    ∃ pre post, l = pre ++ a :: post ∧ (∀ b ∈ pre, p b = false) ∧ p a = true := by
  induction l with
  | nil => cases h
  | cons x xs ih =>
    by_cases hx : p x
    · rw [List.find?_cons_of_pos _ hx] at h
      cases h
      exact ⟨[], xs, rfl, (by intro b hb; cases hb), hx⟩
    · rw [List.find?_cons_of_neg _ (by simpa using hx)] at h
      obtain ⟨pre, post, hl, hpre, ha⟩ := ih h
      refine ⟨x :: pre, post, by rw [hl]; rfl, ?_, ha⟩
      intro b hb
      rcases List.mem_cons.mp hb with h1 | h1
      · subst h1; simpa using hx
      · exact hpre b h1

/-! ## Claim theorems about the loop body -/

/-- Environment with no storage failure, no pushover token, no sockets. -/
def envOk : IterEnv := ⟨false, false, false, none, false, []⟩

/-- Claim C3 (counterexample): with one unassigned ticket, one free doctor
and a failing assignment commit, the exception escapes the loop body —
refuting the claim that no per-item storage failure ever propagates out of
the loop body. -/
theorem spec_C3_counterexample :
    (allocation_worker_iter ⟨false, true, false, none, false, []⟩
      [⟨1, "Dr. Alice", some 5, none⟩]
      [⟨1, none, TicketStatus.triage_done, 50⟩] 1).raised = true := by
  decide

/-- Claim C3 (amended): if the storage operations of the iteration (ticket
re-fetch, assignment commit, log commit) do not fail, then no exception
propagates out of the loop body, whatever the notification layer does —
`send_pushover` swallows HTTP failures and the broadcast is both internally
total and wrapped in `try/except`. Storage failures, however, do propagate,
because the body is `try/finally` with no `except`. -/
theorem spec_C3_amended_isolation (env : IterEnv) (doctors : List DoctorR)
    (tickets : List TicketR) (ticket_id : Nat)
    (hq : env.queryFails = false) (hca : env.commitAssignFails = false)
    (hcl : env.commitLogFails = false) :
    (allocation_worker_iter env doctors tickets ticket_id).raised = false := by
  unfold allocation_worker_iter
  rw [hq, hca, hcl]
  simp only [Bool.false_eq_true, if_false]
  split
  · rfl
  · split
    · rfl
    · split
      · rfl
      · rfl

/-- Witness for C3 (amended): concrete iteration with a failing pushover
HTTP post and a failing socket still raises nothing. -/
theorem spec_C3_amended_isolation_witness :
    (allocation_worker_iter ⟨false, false, false, some "tok", true, [(1, [false])]⟩
      [⟨1, "Dr. Alice", some 5, some "ukey"⟩]
      [⟨1, none, TicketStatus.triage_done, 50⟩] 1).raised = false :=
  spec_C3_amended_isolation _ _ _ _ rfl rfl rfl

/-- Claim C4 (counterexample): when the assignment commit fails, the item is
not re-enqueued at its original priority (nothing is re-enqueued at all);
the exception propagates and the popped queue entry is lost — refuting the
claim that a commit failure causes a re-enqueue. -/
theorem spec_C4_counterexample :
    (allocation_worker_iter ⟨false, true, false, none, false, []⟩
      [⟨1, "Dr. Bob", some 5, none⟩]
      [⟨2, none, TicketStatus.triage_done, 40⟩] 2).requeue = none ∧
    (allocation_worker_iter ⟨false, true, false, none, false, []⟩
      [⟨1, "Dr. Bob", some 5, none⟩]
      [⟨2, none, TicketStatus.triage_done, 40⟩] 2).raised = true := by
  decide

/-- Claim C4 (amended): when the assignment commit fails on an allocation
attempt (ticket found, unassigned, a doctor available), the iteration ends
with the exception propagating out of the loop body, the ticket table
unchanged (the transaction rolls back), no log row, no notification, and no
re-enqueue: the queue entry is dropped. -/
theorem spec_C4_amended_commit_failure (env : IterEnv) (doctors : List DoctorR)
    (tickets : List TicketR) (ticket_id : Nat) (ticket : TicketR)
    (hq : env.queryFails = false) (hca : env.commitAssignFails = true)
    (hfind : tickets.find? (fun t => t.tid == ticket_id) = some ticket)
    (hun : truthyOptNat ticket.doctor_id = false)
    (hdoc : (find_available_doctor doctors tickets).isSome = true) :
    allocation_worker_iter env doctors tickets ticket_id =
      ⟨tickets, [], none, none, false, true⟩ := by
  unfold allocation_worker_iter
  rw [hq]
  simp only [Bool.false_eq_true, if_false, hfind, hun]
  obtain ⟨d, hd⟩ := Option.isSome_iff_exists.mp hdoc
  rw [hd, hca]
  simp

/-- Witness for C4 (amended): concrete commit-failure iteration. -/
theorem spec_C4_amended_commit_failure_witness :
    allocation_worker_iter ⟨false, true, false, none, false, []⟩
      [⟨1, "Dr. Clara", some 5, none⟩]
      [⟨3, none, TicketStatus.triage_done, 30⟩] 3 =
      ⟨[⟨3, none, TicketStatus.triage_done, 30⟩], [], none, none, false, true⟩ :=
  spec_C4_amended_commit_failure ⟨false, true, false, none, false, []⟩
    [⟨1, "Dr. Clara", some 5, none⟩] [⟨3, none, TicketStatus.triage_done, 30⟩]
    3 ⟨3, none, TicketStatus.triage_done, 30⟩ rfl rfl (by decide) (by decide)
    (by decide)

/-- Claim C7: a queue entry whose ticket no longer exists, or whose ticket
already carries a non-null (and, as for every persisted doctor id, nonzero)
`doctor_id`, is discarded with no change to the ticket table, no log row, no
notification of either kind, no re-enqueue, and nothing raised. -/
theorem spec_C7_idempotent_refetch (env : IterEnv) (doctors : List DoctorR)
    (tickets : List TicketR) (ticket_id : Nat)
    (hq : env.queryFails = false)
    (h : tickets.find? (fun t => t.tid == ticket_id) = none ∨
      ∃ ticket d, tickets.find? (fun t => t.tid == ticket_id) = some ticket ∧
        ticket.doctor_id = some d ∧ d ≠ 0) :
    allocation_worker_iter env doctors tickets ticket_id =
      ⟨tickets, [], none, none, false, false⟩ := by
  unfold allocation_worker_iter
  rw [hq]
  simp only [Bool.false_eq_true, if_false]
  rcases h with h | ⟨ticket, d, hfind, hdid, hd0⟩
  · rw [h]
  · rw [hfind]
    have h2 : truthyOptNat ticket.doctor_id = true := by
      rw [hdid]; simpa [truthyOptNat] using hd0
    simp [h2]

/-- Witness for C7: an already-assigned ticket popped again is a no-op. -/
theorem spec_C7_idempotent_refetch_witness :
    allocation_worker_iter envOk [⟨1, "Dr. Daniel", some 5, none⟩]
      [⟨4, some 1, TicketStatus.physician_review, 20⟩] 4 =
      ⟨[⟨4, some 1, TicketStatus.physician_review, 20⟩], [], none, none,
        false, false⟩ :=
  spec_C7_idempotent_refetch _ _ _ _ rfl
    (Or.inr ⟨⟨4, some 1, TicketStatus.physician_review, 20⟩, 1, by decide,
      rfl, by decide⟩)

/-- The ticket-table component of an iteration is either untouched or the
single committed assignment of an available doctor to the re-fetched,
still-unassigned ticket. -/
theorem allocation_worker_iter_tickets_cases (env : IterEnv)
    (doctors : List DoctorR) (tickets : List TicketR) (ticket_id : Nat) :
    (allocation_worker_iter env doctors tickets ticket_id).tickets = tickets ∨
    ∃ ticket doctor,
      tickets.find? (fun t => t.tid == ticket_id) = some ticket ∧
      truthyOptNat ticket.doctor_id = false ∧
      find_available_doctor doctors tickets = some doctor ∧
      (allocation_worker_iter env doctors tickets ticket_id).tickets =
        assignDoctor tickets ticket.tid doctor.did := by
  unfold allocation_worker_iter
  split
  · left; rfl
  · split
    · left; rfl
    · rename_i ticket hfind
      split
      · left; rfl
      · rename_i htr
        split
        · left; rfl
        · rename_i doctor hfd
          split
          · left; rfl
          · split
            · exact Or.inr ⟨ticket, doctor, hfind, by simpa using htr, hfd, rfl⟩
            · exact Or.inr ⟨ticket, doctor, hfind, by simpa using htr, hfd, rfl⟩

/-- Claim C8: one iteration of the loop never changes an already-set
`doctor_id`. If a ticket row carries `doctor_id = some d` with `d ≠ 0`
(every persisted doctor id is nonzero), then after any iteration the row
with that primary key still carries `doctor_id = some d` — the engine never
overwrites it with a different doctor or with null. -/
theorem spec_C8_write_once (env : IterEnv) (doctors : List DoctorR)
    (tickets : List TicketR) (ticket_id : Nat)
    (hnodup : (tickets.map TicketR.tid).Nodup)
    (t : TicketR) (ht : t ∈ tickets) (d : Nat)
    (hd : t.doctor_id = some d) (hd0 : d ≠ 0) :
    ∃ t2 ∈ (allocation_worker_iter env doctors tickets ticket_id).tickets,
      t2.tid = t.tid ∧ t2.doctor_id = some d := by
  rcases allocation_worker_iter_tickets_cases env doctors tickets ticket_id
    with hsame | ⟨ticket, doctor, hfind, htr, hfd, heq⟩
  · exact ⟨t, by rw [hsame]; exact ht, rfl, hd⟩
  · have hmem := List.mem_of_find?_eq_some hfind
    have hne : ¬ (t.tid == ticket.tid) = true := by
      intro hbe
      have htt : t.tid = ticket.tid := by simpa using hbe
      have heqt : t = ticket :=
        List.inj_on_of_nodup_map hnodup ht hmem htt
      subst heqt
      rw [hd] at htr
      simp [truthyOptNat, hd0] at htr
    refine ⟨t, ?_, rfl, hd⟩
    rw [heq]
    have hfix : (fun x => if x.tid == ticket.tid
        then { x with doctor_id := some doctor.did } else x) t = t := by
      simp only [if_neg hne]
    have hmem2 := List.mem_map_of_mem (fun x => if x.tid == ticket.tid
        then { x with doctor_id := some doctor.did } else x) ht
    rw [hfix] at hmem2
    exact hmem2

/-- Witness for C8: a concrete iteration that assigns some other ticket
leaves a previously assigned row intact. -/
theorem spec_C8_write_once_witness :
    ∃ t2 ∈ (allocation_worker_iter envOk
      [⟨2, "Dr. Emma", some 5, none⟩]
      [⟨5, some 2, TicketStatus.physician_review, 10⟩,
       ⟨6, none, TicketStatus.triage_done, 50⟩] 6).tickets,
      t2.tid = 5 ∧ t2.doctor_id = some 2 :=
  spec_C8_write_once envOk [⟨2, "Dr. Emma", some 5, none⟩]
    [⟨5, some 2, TicketStatus.physician_review, 10⟩,
     ⟨6, none, TicketStatus.triage_done, 50⟩] 6 (by decide)
    ⟨5, some 2, TicketStatus.physician_review, 10⟩ (by decide) 2 rfl
    (by decide)

/-- Claim C5 (counterexample): a doctor of capacity 1 whose only assigned
ticket is `cancelled` has zero non-terminal tickets, yet
`find_available_doctor` returns `None` — the scan counts every
non-`discharged` ticket (cancelled included), refuting the claim that the
first doctor with non-terminal load below capacity is returned and that
`None` is returned exactly when every doctor is saturated. -/
theorem spec_C5_counterexample :
    find_available_doctor [⟨1, "Dr. Frank", some 1, none⟩]
      [⟨7, some 1, TicketStatus.cancelled, 20⟩] = none ∧
    (nonTerminalCount [⟨7, some 1, TicketStatus.cancelled, 20⟩] 1 : Int) <
      orDefault5 (some 1) := by
  decide

/-- Claim C5 (amended): `find_available_doctor` scans the doctor table in
order and returns the first doctor whose count of assigned tickets with
status other than `discharged` (cancelled tickets still count as active) is
strictly below `max_patients or 5`; it returns `None` exactly when every
doctor is saturated in that sense. -/
theorem spec_C5_amended_first_fit (doctors : List DoctorR)
    (tickets : List TicketR) :
    (∀ d, find_available_doctor doctors tickets = some d →
      ∃ pre post, doctors = pre ++ d :: post ∧
        (∀ e ∈ pre, orDefault5 e.max_patients ≤ (activeCount tickets e.did : Int)) ∧
        (activeCount tickets d.did : Int) < orDefault5 d.max_patients) ∧
    (find_available_doctor doctors tickets = none ↔
      ∀ d ∈ doctors, orDefault5 d.max_patients ≤ (activeCount tickets d.did : Int)) := by
  constructor
  · intro d hd
    obtain ⟨pre, post, hl, hpre, hda⟩ := find?_decomp hd
    refine ⟨pre, post, hl, ?_, by simpa using hda⟩
    intro e he
    have := hpre e he
    simp only [decide_eq_false_iff_not, not_lt] at this
    exact this
  · unfold find_available_doctor
    rw [List.find?_eq_none]
    constructor
    · intro h d hd
      have := h d hd
      simp only [decide_eq_true_eq] at this
      omega
    · intro h d hd
      simp only [decide_eq_true_eq]
      have := h d hd
      omega

/-- Witness for C5 (amended): a saturated first doctor is skipped and the
second doctor is returned. -/
theorem spec_C5_amended_first_fit_witness :
    ∃ pre post,
      [(⟨1, "Dr. Grace", some 1, none⟩ : DoctorR), ⟨2, "Dr. Henry", some 5, none⟩] =
        pre ++ (⟨2, "Dr. Henry", some 5, none⟩ : DoctorR) :: post ∧
      (∀ e ∈ pre, orDefault5 e.max_patients ≤
        (activeCount [⟨8, some 1, TicketStatus.cancelled, 20⟩] e.did : Int)) ∧
      (activeCount [⟨8, some 1, TicketStatus.cancelled, 20⟩] 2 : Int) <
        orDefault5 (some 5) :=
  (spec_C5_amended_first_fit
    [⟨1, "Dr. Grace", some 1, none⟩, ⟨2, "Dr. Henry", some 5, none⟩]
    [⟨8, some 1, TicketStatus.cancelled, 20⟩]).1
    ⟨2, "Dr. Henry", some 5, none⟩ (by decide)

/-- Claim C10: a doctor whose `max_patients` is NULL or 0 is given effective
capacity 5 by `d.max_patients or 5`; in particular a doctor configured with
capacity 0 is returned as available exactly while its active (non-discharged)
ticket count is below 5, and can therefore hold up to 5 concurrent tickets. -/
theorem spec_C10_default_capacity (d : DoctorR) (tickets : List TicketR)
    (h : d.max_patients = none ∨ d.max_patients = some 0) :
    orDefault5 d.max_patients = 5 ∧
    (find_available_doctor [d] tickets = some d ↔
      (activeCount tickets d.did : Int) < 5) := by
  have hcap : orDefault5 d.max_patients = 5 := by
    rcases h with h | h <;> rw [h] <;> simp [orDefault5]
  refine ⟨hcap, ?_⟩
  unfold find_available_doctor
  by_cases hlt : (activeCount tickets d.did : Int) < 5
  · rw [List.find?_cons_of_pos _
      (by simp only [decide_eq_true_eq, hcap]; exact hlt)]
    simp [hlt]
  · rw [List.find?_cons_of_neg _
      (by simp only [decide_eq_true_eq, hcap]; exact hlt)]
    simp [hlt]

/-- Witness for C10: a doctor with `max_patients = 0` and four active
tickets is still returned; with five it is not. -/
theorem spec_C10_default_capacity_witness :
    orDefault5 (some 0) = 5 ∧
    (find_available_doctor [⟨3, "Dr. Ivy", some 0, none⟩]
      [⟨11, some 3, TicketStatus.created, 50⟩,
       ⟨12, some 3, TicketStatus.created, 50⟩,
       ⟨13, some 3, TicketStatus.created, 50⟩,
       ⟨14, some 3, TicketStatus.created, 50⟩] =
        some ⟨3, "Dr. Ivy", some 0, none⟩ ↔
      (activeCount
        [⟨11, some 3, TicketStatus.created, 50⟩,
         ⟨12, some 3, TicketStatus.created, 50⟩,
         ⟨13, some 3, TicketStatus.created, 50⟩,
         ⟨14, some 3, TicketStatus.created, 50⟩] 3 : Int) < 5) :=
  spec_C10_default_capacity ⟨3, "Dr. Ivy", some 0, none⟩
    [⟨11, some 3, TicketStatus.created, 50⟩,
     ⟨12, some 3, TicketStatus.created, 50⟩,
     ⟨13, some 3, TicketStatus.created, 50⟩,
     ⟨14, some 3, TicketStatus.created, 50⟩] (Or.inr rfl)

/-! ## System-level reachability and the capacity invariant (C2) -/

/-- One step of the system over the persisted ticket table, with a fixed
doctor table (doctors are seeded at startup and static): intake creates a
ticket with a fresh id and null `doctor_id` (`start_patient_workflow`), a
non-terminal ticket may advance its status (and have its priority re-scored
by triage), and the allocation worker runs one loop iteration. -/
inductive SysStep (doctors : List DoctorR) : List TicketR → List TicketR → Prop
  | intake (tickets : List TicketR) (tid : Nat) (st : TicketStatus) (ps : Int)
      (hfresh : tid ∉ tickets.map TicketR.tid) :
      SysStep doctors tickets (tickets ++ [⟨tid, none, st, ps⟩])
  | advance (pre post : List TicketR) (t : TicketR) (st2 : TicketStatus)
      (ps2 : Int) (hterm : t.status.isTerminal = false) :
      SysStep doctors (pre ++ t :: post)
        (pre ++ { t with status := st2, priority_score := ps2 } :: post)
  | alloc (tickets : List TicketR) (env : IterEnv) (ticket_id : Nat) :
      SysStep doctors tickets
        (allocation_worker_iter env doctors tickets ticket_id).tickets

/-- The capacity invariant of the spec: every doctor with a configured
`max_patients` value holds at most that many non-terminal tickets. -/
def capacityInv (doctors : List DoctorR) (tickets : List TicketR) : Prop :=
  ∀ d ∈ doctors, ∀ m : Int, d.max_patients = some m →
    (nonTerminalCount tickets d.did : Int) ≤ m

theorem actFlag_of_ntFlag {did : Nat} {t : TicketR}
    (h : ntFlag did t = true) : actFlag did t = true := by
  unfold ntFlag at h
  unfold actFlag
  cases hst : t.status <;> rw [hst] at h <;>
    simp_all [TicketStatus.isTerminal]

theorem countP_le_countP {α : Type} (p q : α → Bool) (l : List α)
    (h : ∀ a ∈ l, p a = true → q a = true) :
    l.countP p ≤ l.countP q := by
  induction l with
  | nil => simp [List.countP_nil]
  | cons x xs ih =>
    rw [List.countP_cons, List.countP_cons]
    have hx := h x (List.mem_cons_self _ _)
    have hxs := ih (fun a ha => h a (List.mem_cons_of_mem _ ha))
    by_cases hp : p x = true
    · rw [hp, if_pos rfl, h x (List.mem_cons_self _ _) hp]
      simpa using Nat.add_le_add hxs (Nat.le_refl 1)
    · rw [Bool.not_eq_true] at hp
      rw [hp]
      simp only [Bool.false_eq_true, if_false, Nat.add_zero]
      exact Nat.le_trans hxs (by split <;> omega)

theorem nonTerminalCount_le_activeCount (tickets : List TicketR) (did : Nat) :
    nonTerminalCount tickets did ≤ activeCount tickets did :=
  countP_le_countP _ _ tickets (fun _ _ h => actFlag_of_ntFlag h)

/-- Committing the assignment rewrites exactly the fetched row when ticket
ids are unique. -/
theorem assignDoctor_decomp (pre post : List TicketR) (ticket : TicketR)
    (did : Nat)
    (hnodup : (((pre ++ ticket :: post)).map TicketR.tid).Nodup) :
    assignDoctor (pre ++ ticket :: post) ticket.tid did =
      pre ++ { ticket with doctor_id := some did } :: post := by
  rw [List.map_append, List.map_cons] at hnodup
  have hdisj := List.disjoint_of_nodup_append hnodup
  have hnotpre : ticket.tid ∉ pre.map TicketR.tid := by
    intro hmem
    exact hdisj hmem (List.mem_cons_self _ _)
  have hnotpost : ticket.tid ∉ post.map TicketR.tid := by
    have h2 := (List.nodup_append.mp hnodup).2.1
    exact (List.nodup_cons.mp h2).1
  unfold assignDoctor
  rw [List.map_append, List.map_cons]
  have hfix : ∀ l : List TicketR, ticket.tid ∉ l.map TicketR.tid →
      l.map (fun t => if t.tid == ticket.tid
        then { t with doctor_id := some did } else t) = l := by
    intro l hl
    have : ∀ t ∈ l, (if t.tid == ticket.tid
        then { t with doctor_id := some did } else t) = t := by
      intro t ht
      have hne : ¬ (t.tid == ticket.tid) = true := by
        intro hbe
        have : ticket.tid ∈ l.map TicketR.tid := by
          have htt : t.tid = ticket.tid := by simpa using hbe
          exact htt ▸ List.mem_map_of_mem TicketR.tid ht
        exact hl this
      rw [if_neg hne]
    rw [List.map_congr_left this]
    simp
  rw [hfix pre hnotpre, hfix post hnotpost]
  have hself : (ticket.tid == ticket.tid) = true := by simp
  rw [if_pos hself]

/-- Every system step preserves uniqueness of ticket ids and the capacity
invariant, provided doctor ids are unique and every configured
`max_patients` is at least 1 (as in the seeded doctor set, all capacity 5). -/
theorem sysStep_preserves (doctors : List DoctorR)
    (hdd : (doctors.map DoctorR.did).Nodup)
    (hcap : ∀ d ∈ doctors, ∀ m : Int, d.max_patients = some m → 1 ≤ m)
    {s1 s2 : List TicketR} (hstep : SysStep doctors s1 s2)
    (hnd : (s1.map TicketR.tid).Nodup) (hinv : capacityInv doctors s1) :
    (s2.map TicketR.tid).Nodup ∧ capacityInv doctors s2 := by
  cases hstep with
  | intake s1x tid st ps hfresh =>
    constructor
    · rw [List.map_append]
      refine List.Nodup.append hnd (List.nodup_singleton _) ?_
      intro a ha hb
      simp only [List.map_cons, List.map_nil, List.mem_singleton] at hb
      subst hb
      exact hfresh ha
    · intro d hd m hm
      have h0 := hinv d hd m hm
      have hcnt : nonTerminalCount (s1 ++ [⟨tid, none, st, ps⟩]) d.did =
          nonTerminalCount s1 d.did := by
        unfold nonTerminalCount
        rw [List.countP_append]
        simp [List.countP_cons, ntFlag]
      rw [hcnt]
      exact h0
  | advance pre post t st2 ps2 hterm =>
    constructor
    · simp only [List.map_append, List.map_cons] at hnd ⊢
      exact hnd
    · intro d hd m hm
      have h0 := hinv d hd m hm
      unfold nonTerminalCount at h0 ⊢
      rw [List.countP_append, List.countP_cons] at h0 ⊢
      have hle : (if ntFlag d.did { t with status := st2, priority_score := ps2 }
          = true then 1 else 0) ≤ (if ntFlag d.did t = true then 1 else 0) := by
        by_cases hb : (t.doctor_id == some d.did) = true
        · have hnt : ntFlag d.did t = true := by
            unfold ntFlag
            rw [hb, hterm]
            rfl
          rw [hnt]
          split <;> simp
        · rw [Bool.not_eq_true] at hb
          have h1 : ntFlag d.did t = false := by
            unfold ntFlag; rw [hb]; rfl
          have h2 : ntFlag d.did { t with status := st2, priority_score := ps2 }
              = false := by
            unfold ntFlag
            have : ({ t with status := st2, priority_score := ps2 }).doctor_id
                = t.doctor_id := rfl
            rw [this, hb]; rfl
          rw [h1, h2]
      omega
  | alloc s1x env ticket_id =>
    rcases allocation_worker_iter_tickets_cases env doctors s1 ticket_id
      with hsame | ⟨ticket, doctor, hfind, htr, hfd, heq⟩
    · rw [hsame]; exact ⟨hnd, hinv⟩
    · obtain ⟨pre, post, hl, hpref, hpt⟩ := find?_decomp hfind
      subst hl
      have hass := assignDoctor_decomp pre post ticket doctor.did hnd
      rw [heq, hass]
      constructor
      · simp only [List.map_append, List.map_cons] at hnd ⊢
        exact hnd
      · intro d hd m hm
        have hmemdoc := List.mem_of_find?_eq_some hfd
        have hguard : (activeCount (pre ++ ticket :: post) doctor.did : Int) <
            orDefault5 doctor.max_patients := by
          simpa using List.find?_some hfd
        by_cases hdid : d.did = doctor.did
        · have hde : d = doctor := List.inj_on_of_nodup_map hdd hd hmemdoc hdid
          subst hde
          have hm1 : (1 : Int) ≤ m := hcap d hd m hm
          have hcap5 : orDefault5 d.max_patients = m := by
            rw [hm]
            show (if m = 0 then (5 : Int) else m) = m
            rw [if_neg (by omega)]
          rw [hcap5] at hguard
          unfold nonTerminalCount
          unfold activeCount at hguard
          rw [List.countP_append, List.countP_cons] at hguard ⊢
          have hb1 : pre.countP (ntFlag d.did) ≤ pre.countP (actFlag d.did) :=
            countP_le_countP _ _ _ (fun a _ h => actFlag_of_ntFlag h)
          have hb2 : post.countP (ntFlag d.did) ≤ post.countP (actFlag d.did) :=
            countP_le_countP _ _ _ (fun a _ h => actFlag_of_ntFlag h)
          have hb3 : (if ntFlag d.did { ticket with doctor_id := some d.did }
              = true then 1 else 0) ≤ 1 := by split <;> omega
          omega
        · have h0 := hinv d hd m hm
          unfold nonTerminalCount at h0 ⊢
          rw [List.countP_append, List.countP_cons] at h0 ⊢
          have hz : ntFlag d.did { ticket with doctor_id := some doctor.did }
              = false := by
            unfold ntFlag
            have hb : (({ ticket with doctor_id := some doctor.did }).doctor_id
                == some d.did) = false := by
              simp only [Option.some.injEq]
              simpa using fun hcontra => hdid (by omega)
            rw [hb]; rfl
          rw [hz]
          simp only [Bool.false_eq_true, if_false]
          omega

/-- Claim C2: in every state reachable by the system — intake creating
tickets with null `doctor_id`, the allocation worker assigning doctors,
statuses advancing out of non-terminal states — every doctor with a
configured positive `max_patients` capacity (doctor ids unique, as primary
keys, and every seeded capacity is 5 ≥ 1) holds at most `max_patients`
tickets of non-terminal status. -/
theorem spec_C2_capacity_invariant (doctors : List DoctorR)
    (hdd : (doctors.map DoctorR.did).Nodup)
    (hcap : ∀ d ∈ doctors, ∀ m : Int, d.max_patients = some m → 1 ≤ m)
    (init s : List TicketR)
    (hnd : (init.map TicketR.tid).Nodup)
    (hinit : capacityInv doctors init)
    (hreach : Relation.ReflTransGen (SysStep doctors) init s) :
    capacityInv doctors s := by
  have h : (s.map TicketR.tid).Nodup ∧ capacityInv doctors s := by
    induction hreach with
    | refl => exact ⟨hnd, hinit⟩
    | tail hsteps hstep ih =>
      exact sysStep_preserves doctors hdd hcap hstep ih.1 ih.2
  exact h.2

/-- Witness for C2: one doctor of capacity 1; from the empty table an intake
step reaches a one-ticket state, and the invariant holds there. -/
theorem spec_C2_capacity_invariant_witness :
    capacityInv [⟨1, "Dr. Jack", some 1, none⟩]
      [⟨21, none, TicketStatus.created, 50⟩] :=
  spec_C2_capacity_invariant [⟨1, "Dr. Jack", some 1, none⟩]
    (by decide)
    (by
      intro d hd m hm
      rcases List.mem_singleton.mp hd with rfl
      simp only [Option.some.injEq] at hm
      omega)
    [] [⟨21, none, TicketStatus.created, 50⟩]
    (by decide)
    (by
      intro d hd m hm
      simp [nonTerminalCount, List.countP_nil]
      rcases List.mem_singleton.mp hd with rfl
      simp only [Option.some.injEq] at hm
      omega)
    (Relation.ReflTransGen.single
      (SysStep.intake [] 21 TicketStatus.created 50 (by decide)))

/-! ## Triage output handling of `start_patient_workflow` (lines 197–210) -/

/-- A parsed JSON value: the result of `json.loads` on the classifier
text. -/
inductive JVal
  | jnull
  | jbool (b : Bool)
  | jint (n : Int)
  | jstr (s : String)
  | jarr (elems : List JVal)
  | jobj (fields : List (String × JVal))

/-- Python `int(x)` on a JSON value: integers pass through, booleans become
0/1, numeric strings convert, everything else (`None`, lists, dicts,
non-numeric strings) raises `TypeError`/`ValueError` — modelled as `none`. -/
def pyToInt : JVal → Option Int
  | .jint n => some n
  | .jbool b => some (if b then 1 else 0)
  | .jstr s => s.toInt?
  | _ => none

/-- Python `dict.get(key, default)`. -/
def dictGet (fields : List (String × JVal)) (key : String) (dflt : JVal) :
    JVal :=
  match fields.find? (fun kv => kv.1 == key) with
  | some kv => kv.2
  | none => dflt

/-- `[e.value for e in UrgencyEnum]`. -/
def urgencyValues : List String := ["critical", "urgent", "normal"]

/-- `UrgencyEnum(urgency)` for a member value. -/
def urgencyOfString (s : String) : UrgencyEnum :=
  if s = "critical" then .critical
  else if s = "urgent" then .urgent
  else .normal

/-- The exceptions the triage block can raise past its `json.loads` guard:
`AttributeError` from `.get` on a non-dict, `TypeError`/`ValueError` from
`int()` on a non-convertible score. -/
inductive PyExn
  | attributeError
  | valueOrTypeError
deriving DecidableEq, Repr

/-- The ticket fields written by the triage step on success. -/
structure TriageOutcome where
  urgency : UrgencyEnum
  score : Int
  priority_score : Int
  status : TicketStatus
deriving DecidableEq, Repr

/-- The triage-response handling of `start_patient_workflow` (lines
197–210). `parsed` is the outcome of the `json.loads(triage_response)`
attempt: `none` when parsing raised, in which case the `except` branch
substitutes the fixed default object. Only the parse is guarded: `.get` on
a parsed non-object raises `AttributeError`, and `int()` on a score that is
not int-convertible raises, and both propagate out of intake. On success
the ticket gets `priority_score = max(0, 100 - score)` and status
`triage_done`. -/
def processTriage (parsed : Option JVal) : Except PyExn TriageOutcome :=
  let triage_json : JVal :=
    match parsed with
    | none => .jobj [("urgency", .jstr "normal"), ("score", .jint 50),
        ("recommended_tests", .jarr [])]
    | some j => j
  match triage_json with
  | .jobj fields =>
    match pyToInt (dictGet fields "score" (.jint 50)) with
    | none => .error .valueOrTypeError
    | some score =>
      let urgency : UrgencyEnum :=
        match dictGet fields "urgency" (.jstr "normal") with
        | .jstr s => if s ∈ urgencyValues then urgencyOfString s else .normal
        | _ => .normal
      .ok ⟨urgency, score, max 0 (100 - score), .triage_done⟩
  | _ => .error .attributeError

/-- Claim C6 (counterexample): classifier output that *parses* but has the
wrong shape makes intake raise — a JSON array hits `AttributeError` on
`.get`, and an object whose score is JSON null hits `TypeError` in
`int()` — refuting "intake never fails due to classifier output". -/
theorem spec_C6_counterexample :
    processTriage (some (JVal.jarr [])) = Except.error PyExn.attributeError ∧
    processTriage (some (JVal.jobj [("score", JVal.jnull)])) =
      Except.error PyExn.valueOrTypeError := by
  exact ⟨rfl, rfl⟩

/-- Claim C6 (amended): intake survives *unparseable* classifier output —
the JSON-parse failure falls back to `urgency=normal, score=50`, stored
priority 50 — and every successful triage stores
`priority_score = max(0, 100 - score)` with status `triage_done`; but
output that parses to a non-object, or to an object with a non-intable
score, raises out of intake. -/
theorem spec_C6_amended_triage_fallback :
    processTriage none =
      Except.ok ⟨UrgencyEnum.normal, 50, 50, TicketStatus.triage_done⟩ ∧
    ∀ p r, processTriage p = Except.ok r →
      r.priority_score = max 0 (100 - r.score) ∧
      r.status = TicketStatus.triage_done := by
  constructor
  · rfl
  · intro p r h
    rcases p with _ | j
    · have e : processTriage none =
          Except.ok ⟨UrgencyEnum.normal, 50, max 0 (100 - 50),
            TicketStatus.triage_done⟩ := rfl
      rw [e] at h
      cases h
      exact ⟨rfl, rfl⟩
    · cases j with
      | jobj fields =>
        simp only [processTriage] at h
        cases hsc : pyToInt (dictGet fields "score" (.jint 50)) with
        | none => rw [hsc] at h; cases h
        | some score => rw [hsc] at h; cases h; exact ⟨rfl, rfl⟩
      | jnull => cases h
      | jbool b => cases h
      | jint n => cases h
      | jstr s => cases h
      | jarr elems => cases h

/-- Witness for C6 (amended): a parsed score of 120 stores priority
`max(0, 100 - 120) = 0`. -/
theorem spec_C6_amended_triage_fallback_witness :
    (⟨UrgencyEnum.normal, 120, 0, TicketStatus.triage_done⟩ :
        TriageOutcome).priority_score =
      max 0 (100 - (⟨UrgencyEnum.normal, 120, 0, TicketStatus.triage_done⟩ :
        TriageOutcome).score) ∧
    (⟨UrgencyEnum.normal, 120, 0, TicketStatus.triage_done⟩ :
        TriageOutcome).status = TicketStatus.triage_done :=
  spec_C6_amended_triage_fallback.2
    (some (JVal.jobj [("score", JVal.jint 120)])) _ rfl

/-! ## The saturation/requeue scenario (C9) -/

/-- State of the closed-loop simulation: the queue, the persisted ticket
table, and the trace of entries popped so far. -/
structure SimState where
  queue : PriorityQueue
  tickets : List TicketR
  popped : List Entry
deriving Repr

/-- One pass of the `allocation_worker` loop against a state: `queue.get()`
(shown here as its implementation — pop the smallest entry, or sleep when
empty) followed by the loop body, with a `requeue` outcome `put` back. -/
def allocRound (env : IterEnv) (doctors : List DoctorR) (st : SimState) :
    SimState :=
  match findMin st.queue.heap with
  | none => st
  | some e =>
    let q2 : PriorityQueue := ⟨st.queue.heap.erase e, st.queue.counter⟩
    let r := allocation_worker_iter env doctors st.tickets e.tid
    let q3 : PriorityQueue :=
      match r.requeue with
      | none => q2
      | some pt => q2.put pt.1 pt.2
    ⟨q3, r.tickets, st.popped ++ [e]⟩

/-- One worker of capacity 1. -/
def doctors9 : List DoctorR := [⟨1, "Dr. X", some 1, none⟩]

/-- The occupying ticket 1 plus A (id 101, priority 10), B (id 102,
priority 5), C (id 103, priority 5). -/
def ticketsFull9 : List TicketR :=
  [⟨1, some 1, TicketStatus.physician_review, 50⟩,
   ⟨101, none, TicketStatus.triage_done, 10⟩,
   ⟨102, none, TicketStatus.triage_done, 5⟩,
   ⟨103, none, TicketStatus.triage_done, 5⟩]

/-- A, B, C enqueued in that order on a fresh queue, worker full. -/
def st9 : SimState :=
  ⟨putAll [(10, 101), (5, 102), (5, 103)] PriorityQueue.emptyQ,
    ticketsFull9, []⟩

/-- After the first round: B popped, no capacity, B requeued. -/
def st9a : SimState := allocRound envOk doctors9 st9

/-- Capacity frees: ticket 1 is discharged. -/
def ticketsFreed9 : List TicketR :=
  [⟨1, some 1, TicketStatus.discharged, 50⟩,
   ⟨101, none, TicketStatus.triage_done, 10⟩,
   ⟨102, none, TicketStatus.triage_done, 5⟩,
   ⟨103, none, TicketStatus.triage_done, 5⟩]

/-- The freed state, then two more rounds. -/
def st9b : SimState := ⟨st9a.queue, ticketsFreed9, st9a.popped⟩

def st9c : SimState := allocRound envOk doctors9 st9b

def st9d : SimState := allocRound envOk doctors9 st9c

/-- Claim C9 (counterexample): the first failed allocation attempt for B
re-enqueues B at priority 10 — its stored `priority_score` 5 plus the fixed
penalty 5 — and no entry of priority 15 exists anywhere in the queue,
refuting "requeues B at priority 15". -/
theorem spec_C9_counterexample :
    st9a.popped.map Entry.tid = [102] ∧
    (⟨10, 4, 102⟩ : Entry) ∈ st9a.queue.heap ∧
    ∀ e ∈ st9a.queue.heap, e.priority ≠ 15 := by
  decide

/-- Claim C9 (amended): with A(priority 10), B(priority 5), C(priority 5)
enqueued in that order and one worker of capacity 1 already full, the
dequeue order is B, C, A; the first failed attempt for B re-enqueues B at
priority 10 = 5 + 5 (the penalty applies to the unchanged stored score, so
15 never arises for B); and once capacity frees, C (priority 5) is dequeued
— and assigned — before B (priority 10), which is still unassigned then. -/
theorem spec_C9_amended_scenario :
    st9a.popped.map Entry.tid = [102] ∧
    st9a.queue.heap =
      [⟨10, 1, 101⟩, ⟨5, 3, 103⟩, ⟨10, 4, 102⟩] ∧
    st9c.popped.map Entry.tid = [102, 103] ∧
    (st9c.tickets.find? (fun t => t.tid == 103)).map TicketR.doctor_id =
      some (some 1) ∧
    (st9c.tickets.find? (fun t => t.tid == 102)).map TicketR.doctor_id =
      some none ∧
    st9d.popped.map Entry.tid = [102, 103, 101] := by
  decide

end Hospital
